import Mathlib

set_option maxRecDepth 8192

/-!
Verification of `keep_github_workflows_active` (source of authority:
`src/keep_github_workflows_active/keep_active.py`).

The Python module is embedded shallowly:

* HTTP traffic is modelled by explicit response values.  A paginated GET
  endpoint is modelled by the list of successive page responses the server
  would yield for the chain of URLs the code follows (`PageResp`); the
  `requests` library's `raise_for_status` signalling used by the code is
  modelled through the response status, error responses carrying the parsed
  `message` field of their JSON body.
* `requests.put` (workflow enabling) answers with an `EnableResp`;
  `requests.delete` (run deletion) answers with a `DeleteResp`, which also
  covers transport-level failures (`requests.exceptions.RequestException`
  that is not an HTTP status error).
* Python exceptions (`RuntimeError`) become `Except String` values; the
  orchestration loops are written so that an `Except.error` propagates
  exactly like an uncaught exception: the remaining iterations do not run.
* The process environment and the discovered `.env` files become an explicit
  `ConfigEnv` record: `env` is `os.environ.get`, `envFiles` holds the raw
  line contents of the existing candidate `.env` files in the priority order
  produced by `_candidate_env_files` (the filesystem probing itself is an
  external effect and is not re-modelled).
* Network requests performed by the orchestrators are recorded in an event
  trace (`Event`) so that "no request was made" is a provable statement.
-/

namespace KeepActive

/-- `200 <= status < 300`: the statuses for which `raise_for_status` does not
signal an error to the caller. -/
def is2xx (status : Nat) : Bool := 200 ≤ status && status < 300

/-- Result of attempting `response.json()` on an error response body:
either a parsed JSON object with an optional `"message"` field, or an
unparseable body exposing `response.text` and `response.reason`. -/
inductive BodyVal where
  | json (message : Option String)
  | raw (text : String) (reason : String)
deriving DecidableEq

/-- Response to the enable PUT request of `enable_workflow`. -/
structure EnableResp where
  status : Nat
  body : BodyVal
deriving DecidableEq

/-- Response to the DELETE request of `delete_workflow_run`: either an HTTP
response with a status code, or a transport-level failure
(`requests.exceptions.RequestException`). -/
inductive DeleteResp where
  | httpResp (status : Nat)
  | transportFailure (msg : String)
deriving DecidableEq

/-- One page response of a paginated GET endpoint: HTTP status, the
`"message"` field of the body when present (read on errors), the typed body,
and whether a `next` link relation is present in the response headers. -/
structure PageResp (β : Type) where
  status : Nat
  message : Option String
  body : β
  hasNext : Bool

/-- One entry of the list-repositories response body (`repo["name"]`). -/
structure RepoListItem where
  name : String
deriving DecidableEq

/-- One entry of the `workflows` array (`workflow["path"]`). -/
structure WorkflowListItem where
  path : String
deriving DecidableEq

/-- One entry of the `workflow_runs` array (`run["id"]`). -/
structure RunListItem where
  id : Nat
deriving DecidableEq

/-- Python `s.startswith(p)`. -/
def pyStartsWith (s p : String) : Bool :=
  p.toList.isPrefixOf s.toList

/-- `pathlib.Path(p).name`: the final path component (trailing separators
ignored, as `pathlib` normalises them away). -/
def pathName (p : String) : String :=
  (((p.toList.reverse.dropWhile (fun c => c = '/')).takeWhile (fun c => c ≠ '/')).reverse).asString

/-- The shared `while url:` pagination loop of `get_repositories`,
`get_workflows` and `get_workflow_runs`: fetch a page; on an HTTP error
raise with the body's `message` field (default `"Error"`); otherwise extend
the accumulator with the items extracted from the body and continue while a
`next` link is present. -/
def fetchLoop (extract : β → List α) : List (PageResp β) → Except String (List α)
  | [] => .ok []
  | p :: rest =>
    if is2xx p.status then
      if p.hasNext then
        (fetchLoop extract rest).map (fun tail => extract p.body ++ tail)
      else
        .ok (extract p.body)
    else
      .error (p.message.getD "Error")

/-- Extraction used by `get_repositories`: `[repo["name"] for repo in data]`. -/
def extractRepoNames (items : List RepoListItem) : List String :=
  items.map (fun r => r.name)

/-- Extraction used by `get_workflows`:
`[pathlib.Path(workflow["path"]).name for workflow in data.get("workflows", [])]`. -/
def extractWorkflowNames (body : Option (List WorkflowListItem)) : List String :=
  (body.getD []).map (fun w => pathName w.path)

/-- Extraction used by `get_workflow_runs`:
`[run["id"] for run in data.get("workflow_runs", [])]`. -/
def extractRunIds (body : Option (List RunListItem)) : List Nat :=
  (body.getD []).map (fun r => r.id)

/-- `get_repositories`: paginated listing of repository names; an HTTP error
raises `RuntimeError` with the shown message, discarding accumulated pages. -/
def get_repositories (owner : String) (pages : List (PageResp (List RepoListItem))) :
    Except String (List String) :=
  match fetchLoop extractRepoNames pages with
  | .ok names => .ok names
  | .error m => .error ("ERROR reading repositories for user " ++ owner ++ ": " ++ m)

/-- `get_workflows`: paginated listing of workflow filenames for one
repository. -/
def get_workflows (owner repository : String)
    (pages : List (PageResp (Option (List WorkflowListItem)))) :
    Except String (List String) :=
  match fetchLoop extractWorkflowNames pages with
  | .ok names => .ok names
  | .error m =>
    .error ("ERROR reading workflows for user: " ++ owner ++ ", repository: "
      ++ repository ++ ", " ++ m)

/-- `get_workflow_runs`: paginated listing of run identifiers for one
repository. -/
def get_workflow_runs (owner repository : String)
    (pages : List (PageResp (Option (List RunListItem)))) :
    Except String (List Nat) :=
  match fetchLoop extractRunIds pages with
  | .ok ids => .ok ids
  | .error m =>
    .error ("ERROR reading workflow runs for user: " ++ owner ++ ", repository: "
      ++ repository ++ ", " ++ m)

/-- The error-message fallback chain of `enable_workflow`:
`resp.json().get("message", "Error")`, and on a JSON parse failure
`resp.text or resp.reason or "Error"`. -/
def enableErrorMessage (body : BodyVal) : String :=
  match body with
  | .json (some m) => m
  | .json none => "Error"
  | .raw text reason => if text ≠ "" then text else if reason ≠ "" then reason else "Error"

/-- `enable_workflow`: skip rules by filename, otherwise one PUT request.
The second component counts the PUT requests issued (0 or 1); the first is
the returned message, or the raised `RuntimeError` message. -/
def enable_workflow (repository workflow_filename : String) (resp : EnableResp) :
    Except String String × Nat :=
  if pyStartsWith workflow_filename "pages-build-deployment" then
    (.ok ("Repository " ++ repository ++ ", workflow " ++ workflow_filename
      ++ " skipped - those can not be enabled"), 0)
  else if pyStartsWith workflow_filename "dependabot" then
    (.ok ("Repository " ++ repository ++ ", workflow " ++ workflow_filename
      ++ " skipped - managed by Dependabot"), 0)
  else if is2xx resp.status then
    (.ok ("Enabled repository " ++ repository ++ ", workflow " ++ workflow_filename), 1)
  else
    (.error ("ERROR enabling repository " ++ repository ++ ", workflow "
      ++ workflow_filename ++ ": " ++ enableErrorMessage resp.body), 1)

/-- `delete_workflow_run`: issues one DELETE request; logs a `Deleted` info
line only for status 204 (first component); raises only when the request
itself fails at transport level (`except requests.exceptions.RequestException`
— no `raise_for_status` is called, so non-204 HTTP statuses pass silently). -/
def delete_workflow_run (owner repository : String) (run_id_to_delete : Nat)
    (resp : DeleteResp) : Option String × Except String Unit :=
  match resp with
  | .httpResp status =>
    if status = 204 then
      (some ("Deleted workflow run ID: " ++ toString run_id_to_delete
        ++ " for user: " ++ owner ++ ", repository: " ++ repository), .ok ())
    else
      (none, .ok ())
  | .transportFailure msg =>
    (none, .error ("ERROR deleting workflow run ID: " ++ toString run_id_to_delete
      ++ " for user: " ++ owner ++ ", repository: " ++ repository ++ ": " ++ msg))

/-- Python `l[n:]` for an `int` index `n`: a negative start counts from the
end, clamped at 0. -/
def pySliceFrom (l : List α) (n : Int) : List α :=
  if 0 ≤ n then l.drop n.toNat else l.drop ((l.length : Int) + n).toNat

/-- `sorted(workflow_run_ids, reverse=True)`. -/
def sortDescending (ids : List Nat) : List Nat :=
  ids.insertionSort (· ≥ ·)

/-- The deletion set computed inside `delete_old_workflow_runs`:
`sorted(workflow_run_ids, reverse=True)[number_of_workflow_runs_to_keep:]`. -/
def workflow_run_ids_to_delete (ids : List Nat) (keep : Int) : List Nat :=
  pySliceFrom (sortDescending ids) keep

/-- The world an orchestrator sweep runs against: page streams for the three
paginated GET endpoints and the responses to enable/delete requests. -/
structure World where
  repoPages : List (PageResp (List RepoListItem))
  workflowPages : String → List (PageResp (Option (List WorkflowListItem)))
  runPages : String → List (PageResp (Option (List RunListItem)))
  enableResp : String → String → EnableResp
  deleteResp : String → Nat → DeleteResp

/-- Network requests observable during a sweep, beyond repository discovery:
workflow listing, enable PUTs, run listing, delete requests. -/
inductive Event where
  | listWorkflows (repository : String)
  | enableRequest (repository : String) (workflow_filename : String)
  | listRuns (repository : String)
  | deleteRequest (repository : String) (run_id : Nat)
deriving DecidableEq

/-- The inner loop of `enable_all_workflows` over one repository's workflow
filenames: a raised `RuntimeError` from `enable_workflow` propagates, ending
the whole sweep; an enable PUT is recorded only when one was issued. -/
def processWorkflows (w : World) (repository : String) :
    List String → List Event × Except String Unit
  | [] => ([], .ok ())
  | fn :: rest =>
    let r := enable_workflow repository fn (w.enableResp repository fn)
    let evs := if r.2 = 1 then [Event.enableRequest repository fn] else []
    match r.1 with
    | .error m => (evs, .error m)
    | .ok _ =>
      let next := processWorkflows w repository rest
      (evs ++ next.1, next.2)

/-- The outer loop of `enable_all_workflows` over the discovered
repositories: a failed workflow listing or a propagated enable failure ends
the whole sweep. -/
def processRepos (owner : String) (w : World) :
    List String → List Event × Except String Unit
  | [] => ([], .ok ())
  | repository :: rest =>
    match get_workflows owner repository (w.workflowPages repository) with
    | .error m => ([Event.listWorkflows repository], .error m)
    | .ok workflows =>
      let inner := processWorkflows w repository workflows
      match inner.2 with
      | .error m => (Event.listWorkflows repository :: inner.1, .error m)
      | .ok _ =>
        let next := processRepos owner w rest
        (Event.listWorkflows repository :: inner.1 ++ next.1, next.2)

/-- `enable_all_workflows`: discover repositories (fatal on failure), then
per repository list workflows and invoke `enable_workflow` per filename. -/
def enable_all_workflows (owner : String) (w : World) :
    List Event × Except String Unit :=
  match get_repositories owner w.repoPages with
  | .error m => ([], .error m)
  | .ok repositories => processRepos owner w repositories

/-- The inner loop of `delete_old_workflow_runs` over the deletion set: each
iteration issues one DELETE request; a raised `RuntimeError` (transport
failure) propagates, ending the whole sweep. -/
def processRuns (owner : String) (w : World) (repository : String) :
    List Nat → List Event × Except String Unit
  | [] => ([], .ok ())
  | rid :: rest =>
    let r := delete_workflow_run owner repository rid (w.deleteResp repository rid)
    match r.2 with
    | .error m => ([Event.deleteRequest repository rid], .error m)
    | .ok _ =>
      let next := processRuns owner w repository rest
      (Event.deleteRequest repository rid :: next.1, next.2)

/-- The outer loop of `delete_old_workflow_runs` over the discovered
repositories: list run identifiers, sort descending, keep the first `keep`,
delete the rest in order. -/
def processRepoRuns (owner : String) (keep : Int) (w : World) :
    List String → List Event × Except String Unit
  | [] => ([], .ok ())
  | repository :: rest =>
    match get_workflow_runs owner repository (w.runPages repository) with
    | .error m => ([Event.listRuns repository], .error m)
    | .ok ids =>
      let inner := processRuns owner w repository (workflow_run_ids_to_delete ids keep)
      match inner.2 with
      | .error m => (Event.listRuns repository :: inner.1, .error m)
      | .ok _ =>
        let next := processRepoRuns owner keep w rest
        (Event.listRuns repository :: inner.1 ++ next.1, next.2)

/-- `delete_old_workflow_runs`: discover repositories (fatal on failure),
then prune each repository's run history down to `keep` retained runs. -/
def delete_old_workflow_runs (owner : String) (keep : Int) (w : World) :
    List Event × Except String Unit :=
  match get_repositories owner w.repoPages with
  | .error m => ([], .error m)
  | .ok repositories => processRepoRuns owner keep w repositories

/-- Python `s.strip(c)` for a single strip character: remove every leading
and trailing occurrence of `c`. -/
def stripCharList (l : List Char) (c : Char) : List Char :=
  ((l.dropWhile (fun x => x = c)).reverse.dropWhile (fun x => x = c)).reverse

/-- Python `s.strip()`: remove leading and trailing whitespace. -/
def stripList (l : List Char) : List Char :=
  ((l.dropWhile Char.isWhitespace).reverse.dropWhile Char.isWhitespace).reverse

/-- One iteration of the `_read_env_file` line loop: strip whitespace, skip
blank lines and `#` comments, partition at the first `=` (skip the line when
there is none), strip the key, strip the value of whitespace and then of
surrounding double and single quotes. -/
def parseEnvLine (raw_line : String) : Option (String × String) :=
  let stripped := raw_line.toList
  let stripped := stripList stripped
  if stripped = [] then none
  else if stripped.head? = some (Char.ofNat 35) then none
  else
    let key := stripped.takeWhile (fun c => c ≠ '=')
    match stripped.dropWhile (fun c => c ≠ '=') with
    | [] => none
    | _ :: remainder =>
      some ((stripList key).asString,
        (stripCharList (stripCharList (stripList remainder) (Char.ofNat 34))
          (Char.ofNat 39)).asString)

/-- `_read_env_file`: the `key=value` pairs parsed from the file's lines, in
order of appearance (a later line for the same key overrides an earlier
one, as in the Python `dict`). -/
def _read_env_file (lines : List String) : List (String × String) :=
  lines.filterMap parseEnvLine

/-- `dict.get` over the pairs of `_read_env_file`: the value of the last
binding of `key`, if any. -/
def dictGet (pairs : List (String × String)) (key : String) : Option String :=
  (pairs.reverse.find? (fun p => p.1 == key)).map (fun p => p.2)

/-- The process environment together with the contents (raw lines) of the
existing candidate `.env` files, in the priority order established by
`_candidate_env_files`. -/
structure ConfigEnv where
  env : String → Option String
  envFiles : List (List String)

/-- The `.env`-file fallback loop of `_lookup_config_value`: the first file
whose parsed mapping holds a truthy (non-empty) value for `key` wins;
otherwise `RuntimeError("Missing required configuration: ...")`. -/
def lookupInFiles (key : String) : List (List String) → Except String String
  | [] => .error ("Missing required configuration: " ++ key)
  | f :: fs =>
    match dictGet (_read_env_file f) key with
    | some v => if v = "" then lookupInFiles key fs else .ok v
    | none => lookupInFiles key fs

/-- `_lookup_config_value`: a truthy environment value wins; otherwise fall
back to the `.env` files. -/
def _lookup_config_value (cfg : ConfigEnv) (key : String) : Except String String :=
  match cfg.env key with
  | some v => if v = "" then lookupInFiles key cfg.envFiles else .ok v
  | none => lookupInFiles key cfg.envFiles

/-- `get_owner`: resolve `SECRET_GITHUB_OWNER`. -/
def get_owner (cfg : ConfigEnv) : Except String String :=
  _lookup_config_value cfg "SECRET_GITHUB_OWNER"

/-- `get_github_token`: resolve `SECRET_GITHUB_TOKEN`. -/
def get_github_token (cfg : ConfigEnv) : Except String String :=
  _lookup_config_value cfg "SECRET_GITHUB_TOKEN"

/-! Helper lemmas about the pagination loop. -/

theorem fetchLoop_cons_step (extract : β → List α) (p : PageResp β)
    (rest : List (PageResp β)) (h1 : is2xx p.status = true) (h2 : p.hasNext = true) :
    fetchLoop extract (p :: rest)
      = (fetchLoop extract rest).map (fun tail => extract p.body ++ tail) := by
  cases rest <;> simp [fetchLoop, h1, h2, Except.map]

theorem fetchLoop_ok (extract : β → List α) :
    ∀ pages : List (PageResp β),
      (∀ p ∈ pages.dropLast, p.hasNext = true) →
      (∀ p ∈ pages, is2xx p.status = true) →
      fetchLoop extract pages = .ok (pages.map (fun p => extract p.body)).flatten
  | [], _, _ => rfl
  | [p], _, hok => by
    have hp := hok p (List.mem_cons_self _ _)
    cases h : p.hasNext <;> simp [fetchLoop, hp, h, Except.map]
  | p :: q :: rest, hnext, hok => by
    have hp := hok p (List.mem_cons_self _ _)
    have hpn : p.hasNext = true := hnext p (by simp)
    have ih := fetchLoop_ok extract (q :: rest)
      (fun x hx => hnext x (by simp only [List.dropLast_cons₂] at hx ⊢; exact List.mem_cons_of_mem _ hx))
      (fun x hx => hok x (List.mem_cons_of_mem _ hx))
    rw [fetchLoop_cons_step extract p _ hp hpn, ih]
    simp [Except.map]

theorem fetchLoop_error (extract : β → List α) :
    ∀ pages : List (PageResp β),
      (∀ p ∈ pages.dropLast, p.hasNext = true) →
      (∃ p ∈ pages, is2xx p.status = false) →
      ∃ m, fetchLoop extract pages = .error m
  | [], _, hbad => by simp at hbad
  | p :: rest, hnext, hbad => by
    cases hp : is2xx p.status with
    | false => exact ⟨p.message.getD "Error", by simp [fetchLoop, hp]⟩
    | true =>
      obtain ⟨q, hq, hqs⟩ := hbad
      rcases List.mem_cons.mp hq with rfl | hq'
      · rw [hp] at hqs; cases hqs
      · have hrest : rest ≠ [] := by rintro rfl; cases hq'
        have hpn : p.hasNext = true := by
          apply hnext p
          cases rest with
          | nil => cases hq'
          | cons r rs => simp [List.dropLast_cons₂]
        obtain ⟨m, hm⟩ := fetchLoop_error extract rest
          (fun x hx => by
            apply hnext x
            cases rest with
            | nil => cases hx
            | cons r rs =>
              simp only [List.dropLast_cons₂]
              exact List.mem_cons_of_mem _ hx)
          ⟨q, hq', hqs⟩
        exact ⟨m, by rw [fetchLoop_cons_step extract p _ hp hpn, hm]; rfl⟩

/-! Helper lemmas about the descending sort and the Python slice. -/

theorem sortDescending_eq (ids : List Nat) :
    sortDescending ids = (ids.insertionSort (· ≤ ·)).reverse := by
  apply List.eq_of_perm_of_sorted (r := (fun a b : Nat => a ≥ b))
  · exact (List.perm_insertionSort _ _).trans
      ((List.perm_insertionSort (· ≤ ·) ids).symm.trans (List.reverse_perm _).symm)
  · exact List.sorted_insertionSort _ _
  · have h := List.sorted_insertionSort (fun a b : Nat => a ≤ b) ids
    exact List.pairwise_reverse.mpr (h.imp (fun hab => hab))

theorem length_sortDescending (ids : List Nat) :
    (sortDescending ids).length = ids.length :=
  (List.perm_insertionSort _ _).length_eq

theorem toDelete_of_nonneg (ids : List Nat) (n : Nat) :
    workflow_run_ids_to_delete ids (n : Int) =
      ((ids.insertionSort (· ≤ ·)).take (ids.length - n)).reverse := by
  unfold workflow_run_ids_to_delete pySliceFrom
  rw [if_pos (Int.ofNat_nonneg n), sortDescending_eq, List.drop_reverse]
  have hlen : (ids.insertionSort (· ≤ ·)).length = ids.length :=
    (List.perm_insertionSort _ _).length_eq
  congr 2
  omega

theorem toDelete_of_neg (ids : List Nat) (k : Nat) (hk : 1 ≤ k) :
    workflow_run_ids_to_delete ids (-(k : Int)) =
      ((ids.insertionSort (· ≤ ·)).take (min k ids.length)).reverse := by
  unfold workflow_run_ids_to_delete pySliceFrom
  rw [if_neg (by omega), sortDescending_eq, List.drop_reverse]
  have hlen : (ids.insertionSort (· ≤ ·)).length = ids.length :=
    (List.perm_insertionSort _ _).length_eq
  rw [List.length_reverse, hlen]
  congr 2
  omega

theorem sorted_toDelete (ids : List Nat) (keep : Int) :
    List.Sorted (fun a b : Nat => a ≥ b) (workflow_run_ids_to_delete ids keep) := by
  have hs : List.Sorted (fun a b : Nat => a ≥ b) (sortDescending ids) :=
    List.sorted_insertionSort _ _
  unfold workflow_run_ids_to_delete pySliceFrom
  split <;> exact hs.sublist (List.drop_sublist _ _)

theorem processRuns_trace (owner : String) (w : World) (repository : String) :
    ∀ ids : List Nat,
      (∀ rid ∈ ids,
        (delete_workflow_run owner repository rid (w.deleteResp repository rid)).2 = .ok ()) →
      processRuns owner w repository ids = (ids.map (Event.deleteRequest repository), .ok ())
  | [], _ => rfl
  | rid :: rest, hok => by
    have h1 := hok rid (List.mem_cons_self _ _)
    have ih := processRuns_trace owner w repository rest
      (fun x hx => hok x (List.mem_cons_of_mem _ hx))
    simp [processRuns, h1, ih]

/-! Shape lemmas for failing per-item actions. -/

theorem enable_error_shape (repository fn : String) (resp : EnableResp) (m : String)
    (h : (enable_workflow repository fn resp).1 = .error m) :
    enable_workflow repository fn resp = (.error m, 1) := by
  unfold enable_workflow at h ⊢
  split_ifs at h ⊢
  all_goals simp_all

theorem delete_error_shape (owner repository : String) (rid : Nat) (resp : DeleteResp) (m : String)
    (h : (delete_workflow_run owner repository rid resp).2 = .error m) :
    delete_workflow_run owner repository rid resp = (none, .error m) := by
  cases resp with
  | httpResp s =>
    simp only [delete_workflow_run] at h
    split at h
    all_goals simp_all
  | transportFailure msg => simp_all [delete_workflow_run]

/-- C2: for every sequence of pages where all but the last carry a `next`
link, each paginated listing (`get_repositories`, `get_workflows`,
`get_workflow_runs`) returns the concatenation of the items extracted from
each page in page order, with total length the sum of the per-page counts;
and if any page has a non-2xx status, the listing returns no items at all
and signals the error, regardless of how many prior pages succeeded. -/
theorem c2_paginated_fetch_all_or_nothing (owner repository : String)
    (rp : List (PageResp (List RepoListItem)))
    (wp : List (PageResp (Option (List WorkflowListItem))))
    (np : List (PageResp (Option (List RunListItem))))
    (hrp : ∀ p ∈ rp.dropLast, p.hasNext = true)
    (hwp : ∀ p ∈ wp.dropLast, p.hasNext = true)
    (hnp : ∀ p ∈ np.dropLast, p.hasNext = true) :
    ((∀ p ∈ rp, is2xx p.status = true) →
      get_repositories owner rp = .ok ((rp.map (fun p => extractRepoNames p.body)).flatten)
      ∧ ((rp.map (fun p => extractRepoNames p.body)).flatten).length
          = (rp.map (fun p => (extractRepoNames p.body).length)).sum)
    ∧ ((∃ p ∈ rp, is2xx p.status = false) →
        ∃ m, get_repositories owner rp = .error m)
    ∧ ((∀ p ∈ wp, is2xx p.status = true) →
      get_workflows owner repository wp
          = .ok ((wp.map (fun p => extractWorkflowNames p.body)).flatten)
      ∧ ((wp.map (fun p => extractWorkflowNames p.body)).flatten).length
          = (wp.map (fun p => (extractWorkflowNames p.body).length)).sum)
    ∧ ((∃ p ∈ wp, is2xx p.status = false) →
        ∃ m, get_workflows owner repository wp = .error m)
    ∧ ((∀ p ∈ np, is2xx p.status = true) →
      get_workflow_runs owner repository np
          = .ok ((np.map (fun p => extractRunIds p.body)).flatten)
      ∧ ((np.map (fun p => extractRunIds p.body)).flatten).length
          = (np.map (fun p => (extractRunIds p.body).length)).sum)
    ∧ ((∃ p ∈ np, is2xx p.status = false) →
        ∃ m, get_workflow_runs owner repository np = .error m) := by
  refine ⟨?_, ?_, ?_, ?_, ?_, ?_⟩
  · intro hok
    refine ⟨?_, by rw [List.length_flatten, List.map_map]; rfl⟩
    simp [get_repositories, fetchLoop_ok extractRepoNames rp hrp hok]
  · intro hbad
    obtain ⟨m, hm⟩ := fetchLoop_error extractRepoNames rp hrp hbad
    refine ⟨"ERROR reading repositories for user " ++ owner ++ ": " ++ m, ?_⟩
    simp [get_repositories, hm]
  · intro hok
    refine ⟨?_, by rw [List.length_flatten, List.map_map]; rfl⟩
    simp [get_workflows, fetchLoop_ok extractWorkflowNames wp hwp hok]
  · intro hbad
    obtain ⟨m, hm⟩ := fetchLoop_error extractWorkflowNames wp hwp hbad
    refine ⟨"ERROR reading workflows for user: " ++ owner ++ ", repository: "
      ++ repository ++ ", " ++ m, ?_⟩
    simp [get_workflows, hm]
  · intro hok
    refine ⟨?_, by rw [List.length_flatten, List.map_map]; rfl⟩
    simp [get_workflow_runs, fetchLoop_ok extractRunIds np hnp hok]
  · intro hbad
    obtain ⟨m, hm⟩ := fetchLoop_error extractRunIds np hnp hbad
    refine ⟨"ERROR reading workflow runs for user: " ++ owner ++ ", repository: "
      ++ repository ++ ", " ++ m, ?_⟩
    simp [get_workflow_runs, hm]

/-- C2 witness: concrete two-page runs, successful and failing, for each of
the three listings. -/
theorem c2_witness :
    get_repositories "octo"
        [⟨200, none, [⟨"r1"⟩, ⟨"r2"⟩], true⟩, ⟨200, none, [⟨"r3"⟩], false⟩]
      = .ok ["r1", "r2", "r3"]
    ∧ (∃ m, get_repositories "octo"
        [⟨200, none, [⟨"r1"⟩], true⟩, ⟨500, some "boom", [⟨"r3"⟩], false⟩] = .error m)
    ∧ get_workflows "octo" "repo1"
        [⟨200, none, some [⟨".github/workflows/ci.yml"⟩], true⟩,
         ⟨200, none, some [⟨".github/workflows/docs.yml"⟩], false⟩]
      = .ok ["ci.yml", "docs.yml"]
    ∧ (∃ m, get_workflows "octo" "repo1"
        [⟨404, some "Not Found", none, false⟩] = .error m)
    ∧ get_workflow_runs "octo" "repo1"
        [⟨200, none, some [⟨11⟩, ⟨12⟩], true⟩, ⟨200, none, some [⟨13⟩], false⟩]
      = .ok [11, 12, 13]
    ∧ (∃ m, get_workflow_runs "octo" "repo1"
        [⟨403, some "rate limited", none, false⟩] = .error m) := by
  obtain ⟨a1, -, -, -, -, -⟩ := c2_paginated_fetch_all_or_nothing "octo" "repo1"
    [⟨200, none, [⟨"r1"⟩, ⟨"r2"⟩], true⟩, ⟨200, none, [⟨"r3"⟩], false⟩] [] []
    (by simp) (by simp) (by simp)
  obtain ⟨-, a2, -, -, -, -⟩ := c2_paginated_fetch_all_or_nothing "octo" "repo1"
    [⟨200, none, [⟨"r1"⟩], true⟩, ⟨500, some "boom", [⟨"r3"⟩], false⟩] [] []
    (by simp) (by simp) (by simp)
  obtain ⟨-, -, a3, -, -, -⟩ := c2_paginated_fetch_all_or_nothing "octo" "repo1" []
    [⟨200, none, some [⟨".github/workflows/ci.yml"⟩], true⟩,
     ⟨200, none, some [⟨".github/workflows/docs.yml"⟩], false⟩] []
    (by simp) (by simp) (by simp)
  obtain ⟨-, -, -, a4, -, -⟩ := c2_paginated_fetch_all_or_nothing "octo" "repo1" []
    [⟨404, some "Not Found", none, false⟩] []
    (by simp) (by simp) (by simp)
  obtain ⟨-, -, -, -, a5, -⟩ := c2_paginated_fetch_all_or_nothing "octo" "repo1" [] []
    [⟨200, none, some [⟨11⟩, ⟨12⟩], true⟩, ⟨200, none, some [⟨13⟩], false⟩]
    (by simp) (by simp) (by simp)
  obtain ⟨-, -, -, -, -, a6⟩ := c2_paginated_fetch_all_or_nothing "octo" "repo1" [] []
    [⟨403, some "rate limited", none, false⟩]
    (by simp) (by simp) (by simp)
  refine ⟨?_, a2 (by decide), ?_, a4 (by decide), ?_, a6 (by decide)⟩
  · exact ((a1 (by decide)).1).trans (by rfl)
  · exact ((a3 (by decide)).1).trans (by rfl)
  · exact ((a5 (by decide)).1).trans (by rfl)

/-- C3: for every run-identifier list and every keep >= 0 the deletion set
has exactly `max(0, len - keep)` elements (so `min(keep, len)` runs are
retained), consists of exactly the smallest-valued identifiers (it equals
the reversed `len - keep`-element front of the ascending sort), is sorted
descending, and the pruner issues its delete requests in exactly that
order; `keep = 0` targets every run and `len <= keep` yields an empty
deletion set. -/
theorem c3_pruning_retention_arithmetic (ids : List Nat) (n : Nat) :
    (workflow_run_ids_to_delete ids (n : Int)).length = ids.length - n
    ∧ ids.length - (workflow_run_ids_to_delete ids (n : Int)).length = min n ids.length
    ∧ workflow_run_ids_to_delete ids (n : Int)
        = ((ids.insertionSort (· ≤ ·)).take (ids.length - n)).reverse
    ∧ List.Sorted (fun a b : Nat => a ≥ b) (workflow_run_ids_to_delete ids (n : Int))
    ∧ (n = 0 → List.Perm (workflow_run_ids_to_delete ids (n : Int)) ids)
    ∧ (ids.length ≤ n → workflow_run_ids_to_delete ids (n : Int) = [])
    ∧ ∀ (owner repository : String) (w : World),
        (∀ rid ∈ workflow_run_ids_to_delete ids (n : Int),
          (delete_workflow_run owner repository rid (w.deleteResp repository rid)).2 = .ok ()) →
        processRuns owner w repository (workflow_run_ids_to_delete ids (n : Int))
          = ((workflow_run_ids_to_delete ids (n : Int)).map (Event.deleteRequest repository),
             .ok ()) := by
  have key := toDelete_of_nonneg ids n
  have hsort : (ids.insertionSort (· ≤ ·)).length = ids.length :=
    (List.perm_insertionSort _ _).length_eq
  have hlen : (workflow_run_ids_to_delete ids (n : Int)).length = ids.length - n := by
    rw [key, List.length_reverse, List.length_take, hsort]
    omega
  refine ⟨hlen, by omega, key, sorted_toDelete ids (n : Int), ?_, ?_, ?_⟩
  · intro h
    subst h
    have h0 : workflow_run_ids_to_delete ids ((0 : Nat) : Int) = sortDescending ids := by
      simp [workflow_run_ids_to_delete, pySliceFrom]
    rw [h0]
    exact List.perm_insertionSort _ _
  · intro h
    have hz : (workflow_run_ids_to_delete ids (n : Int)).length = 0 := by omega
    exact List.length_eq_zero.mp hz
  · intro owner repository w h
    exact processRuns_trace owner w repository _ h

/-- Stub world for the C3 witness: every delete request answers 204. -/
def c3WitnessWorld : World :=
  ⟨[], fun _ => [], fun _ => [], fun _ _ => ⟨204, .json none⟩, fun _ _ => .httpResp 204⟩

/-- C3 witness: runs `[5, 1, 4, 2]` with keep 2 target exactly `[2, 1]`,
deleted in that (descending) order. -/
theorem c3_witness :
    (workflow_run_ids_to_delete [5, 1, 4, 2] ((2 : Nat) : Int)).length = 2
    ∧ workflow_run_ids_to_delete [5, 1, 4, 2] ((2 : Nat) : Int) = [2, 1]
    ∧ processRuns "octo" c3WitnessWorld "repo1"
        (workflow_run_ids_to_delete [5, 1, 4, 2] ((2 : Nat) : Int))
      = ((workflow_run_ids_to_delete [5, 1, 4, 2] ((2 : Nat) : Int)).map
          (Event.deleteRequest "repo1"), .ok ()) := by
  obtain ⟨h1, h2, h3, h4, h5, h6, h7⟩ := c3_pruning_retention_arithmetic [5, 1, 4, 2] 2
  refine ⟨by simpa using h1, ?_, h7 "octo" "repo1" c3WitnessWorld (fun rid _ => rfl)⟩
  rw [h3]
  decide

/-- C9 counterexample: with runs `[1, 2, 3]` and keep `-3` the deletion set
is all three runs, refuting "a negative keep never deletes all runs". -/
theorem c9_counterexample :
    workflow_run_ids_to_delete [1, 2, 3] (-3) = [3, 2, 1]
    ∧ (workflow_run_ids_to_delete [1, 2, 3] (-3)).length = ([1, 2, 3] : List Nat).length := by
  constructor
  · decide
  · decide

/-- C9 amended: for keep `-k` (k >= 1) the deletion set is exactly the
`min(k, len)` smallest-valued identifiers in descending order — never more
than keep `0` deletes, and never an error — but it is all of the runs
whenever `k >= len`, not never. -/
theorem c9_amended_negative_keep (ids : List Nat) (k : Nat) (hk : 1 ≤ k) :
    workflow_run_ids_to_delete ids (-(k : Int))
        = ((ids.insertionSort (· ≤ ·)).take (min k ids.length)).reverse
    ∧ (workflow_run_ids_to_delete ids (-(k : Int))).length = min k ids.length
    ∧ (workflow_run_ids_to_delete ids (-(k : Int))).length
        ≤ (workflow_run_ids_to_delete ids 0).length
    ∧ List.Sorted (fun a b : Nat => a ≥ b) (workflow_run_ids_to_delete ids (-(k : Int)))
    ∧ (ids.length ≤ k →
        (workflow_run_ids_to_delete ids (-(k : Int))).length = ids.length) := by
  have key := toDelete_of_neg ids k hk
  have hsort : (ids.insertionSort (· ≤ ·)).length = ids.length :=
    (List.perm_insertionSort _ _).length_eq
  have hlen : (workflow_run_ids_to_delete ids (-(k : Int))).length = min k ids.length := by
    rw [key, List.length_reverse, List.length_take, hsort]
    omega
  have h0 : (workflow_run_ids_to_delete ids 0).length = ids.length := by
    have hz : workflow_run_ids_to_delete ids 0 = sortDescending ids := by
      simp [workflow_run_ids_to_delete, pySliceFrom]
    rw [hz, length_sortDescending]
  exact ⟨key, hlen, by omega, sorted_toDelete ids _, by omega⟩

/-- C9 witness: keep `-5` on runs `[10, 20]` deletes both runs, in
descending order, and no more than keep `0` would. -/
theorem c9_witness :
    workflow_run_ids_to_delete [10, 20] (-((5 : Nat) : Int)) = [20, 10]
    ∧ (workflow_run_ids_to_delete [10, 20] (-((5 : Nat) : Int))).length
        ≤ (workflow_run_ids_to_delete [10, 20] 0).length := by
  obtain ⟨h1, h2, h3, h4, h5⟩ := c9_amended_negative_keep [10, 20] 5 (by decide)
  constructor
  · rw [h1]
    decide
  · exact h3

/-- C6 (code observation): `delete_workflow_run` treats 204 as logged
success and a transport failure as a raised failure carrying
owner/repository/run id/cause — but a non-204 HTTP response (here 404)
produces no failure at all: the function returns silently. -/
theorem c6_delete_run_code_observation :
    delete_workflow_run "octo" "repo1" 123 (DeleteResp.httpResp 404) = (none, .ok ())
    ∧ delete_workflow_run "octo" "repo1" 123 (DeleteResp.httpResp 204)
        = (some "Deleted workflow run ID: 123 for user: octo, repository: repo1", .ok ())
    ∧ delete_workflow_run "octo" "repo1" 123 (DeleteResp.transportFailure "connection reset")
        = (none, .error
            "ERROR deleting workflow run ID: 123 for user: octo, repository: repo1: connection reset") :=
  ⟨rfl, rfl, rfl⟩

/-- A filename starting with `"dependabot"` never starts with
`"pages-build-deployment"`, so the two skip rules are disjoint. -/
theorem dependabot_not_pages (fn : String)
    (h : pyStartsWith fn "dependabot" = true) :
    pyStartsWith fn "pages-build-deployment" = false := by
  cases hp : pyStartsWith fn "pages-build-deployment" with
  | false => rfl
  | true =>
    exfalso
    unfold pyStartsWith at h hp
    have h1 := List.isPrefixOf_iff_prefix.mp h
    have h2 := List.isPrefixOf_iff_prefix.mp hp
    rcases List.prefix_or_prefix_of_prefix h1 h2 with hc | hc
    · exact absurd hc (by decide)
    · exact absurd hc (by decide)

/-- C4: activation classification is a pure function of the filename: a
`"pages-build-deployment"` prefix means Skipped with zero PUT requests, a
`"dependabot"` prefix means Skipped with zero PUT requests, and any other
filename issues exactly one enable PUT, a 2xx response yielding the Enabled
outcome. -/
theorem c4_activation_classification (repository fn : String) (resp : EnableResp) :
    (pyStartsWith fn "pages-build-deployment" = true →
      enable_workflow repository fn resp
        = (.ok ("Repository " ++ repository ++ ", workflow " ++ fn
            ++ " skipped - those can not be enabled"), 0))
    ∧ (pyStartsWith fn "dependabot" = true →
      enable_workflow repository fn resp
        = (.ok ("Repository " ++ repository ++ ", workflow " ++ fn
            ++ " skipped - managed by Dependabot"), 0))
    ∧ (pyStartsWith fn "pages-build-deployment" = false →
       pyStartsWith fn "dependabot" = false →
      (enable_workflow repository fn resp).2 = 1
      ∧ (is2xx resp.status = true →
          enable_workflow repository fn resp
            = (.ok ("Enabled repository " ++ repository ++ ", workflow " ++ fn), 1))) := by
  refine ⟨?_, ?_, ?_⟩
  · intro h1
    simp [enable_workflow, h1]
  · intro h2
    simp [enable_workflow, dependabot_not_pages fn h2, h2]
  · intro h1 h2
    constructor
    · unfold enable_workflow
      rw [h1, h2]
      simp only [Bool.false_eq_true, if_false]
      split <;> rfl
    · intro hs
      simp [enable_workflow, h1, h2, hs]

/-- C4 witness: the three filenames of the spec's testable property. -/
theorem c4_witness :
    enable_workflow "repo1" "pages-build-deployment-x.yml" ⟨200, .json none⟩
      = (.ok "Repository repo1, workflow pages-build-deployment-x.yml skipped - those can not be enabled", 0)
    ∧ enable_workflow "repo1" "dependabot-y.yml" ⟨200, .json none⟩
      = (.ok "Repository repo1, workflow dependabot-y.yml skipped - managed by Dependabot", 0)
    ∧ enable_workflow "repo1" "ci.yml" ⟨200, .json none⟩
      = (.ok "Enabled repository repo1, workflow ci.yml", 1) := by
  obtain ⟨a1, -, -⟩ :=
    c4_activation_classification "repo1" "pages-build-deployment-x.yml" ⟨200, .json none⟩
  obtain ⟨-, a2, -⟩ :=
    c4_activation_classification "repo1" "dependabot-y.yml" ⟨200, .json none⟩
  obtain ⟨-, -, a3⟩ :=
    c4_activation_classification "repo1" "ci.yml" ⟨200, .json none⟩
  exact ⟨(a1 (by decide)).trans (by rfl), (a2 (by decide)).trans (by rfl),
    ((a3 (by decide) (by decide)).2 (by decide)).trans (by rfl)⟩

/-- C7: on a non-2xx enable response the failure message is the body's
`message` field; a JSON body without `message` falls back to the literal
`"Error"`; an unparseable body falls back to the raw response text, or to
the reason when the text is empty. -/
theorem c7_enable_failure_message_fallback (repository fn : String) (resp : EnableResp)
    (m text reason : String)
    (h1 : pyStartsWith fn "pages-build-deployment" = false)
    (h2 : pyStartsWith fn "dependabot" = false)
    (hs : is2xx resp.status = false) :
    (resp.body = .json (some m) →
      (enable_workflow repository fn resp).1
        = .error ("ERROR enabling repository " ++ repository ++ ", workflow " ++ fn
            ++ ": " ++ m))
    ∧ (resp.body = .json none →
      (enable_workflow repository fn resp).1
        = .error ("ERROR enabling repository " ++ repository ++ ", workflow " ++ fn
            ++ ": " ++ "Error"))
    ∧ (resp.body = .raw text reason → text ≠ "" →
      (enable_workflow repository fn resp).1
        = .error ("ERROR enabling repository " ++ repository ++ ", workflow " ++ fn
            ++ ": " ++ text))
    ∧ (resp.body = .raw "" reason → reason ≠ "" →
      (enable_workflow repository fn resp).1
        = .error ("ERROR enabling repository " ++ repository ++ ", workflow " ++ fn
            ++ ": " ++ reason)) := by
  refine ⟨?_, ?_, ?_, ?_⟩
  · intro hb
    simp [enable_workflow, enableErrorMessage, h1, h2, hs, hb]
  · intro hb
    simp [enable_workflow, enableErrorMessage, h1, h2, hs, hb]
  · intro hb ht
    simp [enable_workflow, enableErrorMessage, h1, h2, hs, hb, ht]
  · intro hb hr
    simp [enable_workflow, enableErrorMessage, h1, h2, hs, hb, hr]

/-- C7 witness: the four fallback levels at concrete responses. -/
theorem c7_witness :
    (enable_workflow "repo1" "ci.yml" ⟨403, .json (some "Forbidden")⟩).1
      = .error "ERROR enabling repository repo1, workflow ci.yml: Forbidden"
    ∧ (enable_workflow "repo1" "ci.yml" ⟨403, .json none⟩).1
      = .error "ERROR enabling repository repo1, workflow ci.yml: Error"
    ∧ (enable_workflow "repo1" "ci.yml" ⟨502, .raw "Bad Gateway page" "Bad Gateway"⟩).1
      = .error "ERROR enabling repository repo1, workflow ci.yml: Bad Gateway page"
    ∧ (enable_workflow "repo1" "ci.yml" ⟨502, .raw "" "Bad Gateway"⟩).1
      = .error "ERROR enabling repository repo1, workflow ci.yml: Bad Gateway" := by
  obtain ⟨a1, -, -, -⟩ := c7_enable_failure_message_fallback "repo1" "ci.yml"
    ⟨403, .json (some "Forbidden")⟩ "Forbidden" "" "" (by decide) (by decide) (by decide)
  obtain ⟨-, a2, -, -⟩ := c7_enable_failure_message_fallback "repo1" "ci.yml"
    ⟨403, .json none⟩ "" "" "" (by decide) (by decide) (by decide)
  obtain ⟨-, -, a3, -⟩ := c7_enable_failure_message_fallback "repo1" "ci.yml"
    ⟨502, .raw "Bad Gateway page" "Bad Gateway"⟩ "" "Bad Gateway page" "Bad Gateway"
    (by decide) (by decide) (by decide)
  obtain ⟨-, -, -, a4⟩ := c7_enable_failure_message_fallback "repo1" "ci.yml"
    ⟨502, .raw "" "Bad Gateway"⟩ "" "" "Bad Gateway" (by decide) (by decide) (by decide)
  exact ⟨(a1 rfl).trans (by rfl), (a2 rfl).trans (by rfl),
    (a3 rfl (by decide)).trans (by rfl), (a4 rfl (by decide)).trans (by rfl)⟩

/-- C5: if repository discovery fails, both top-level operations fail with
the discovery error — whose message extends the server-provided message —
and the event trace is empty: no workflow-listing, enable or delete request
is made for any repository. -/
theorem c5_discovery_failure_fatal_atomic (owner : String) (w : World) (keep : Int)
    (m : String) (h : fetchLoop extractRepoNames w.repoPages = .error m) :
    get_repositories owner w.repoPages
        = .error ("ERROR reading repositories for user " ++ owner ++ ": " ++ m)
    ∧ enable_all_workflows owner w
        = ([], .error ("ERROR reading repositories for user " ++ owner ++ ": " ++ m))
    ∧ delete_old_workflow_runs owner keep w
        = ([], .error ("ERROR reading repositories for user " ++ owner ++ ": " ++ m))
    ∧ ∃ pre, "ERROR reading repositories for user " ++ owner ++ ": " ++ m = pre ++ m := by
  have hg : get_repositories owner w.repoPages
      = .error ("ERROR reading repositories for user " ++ owner ++ ": " ++ m) := by
    simp [get_repositories, h]
  refine ⟨hg, ?_, ?_, ⟨"ERROR reading repositories for user " ++ owner ++ ": ", rfl⟩⟩
  · simp [enable_all_workflows, hg]
  · simp [delete_old_workflow_runs, hg]

/-- World for the C5 witness: repository discovery answers 404 `Not Found`
while every repository would have workflows and runs to process. -/
def c5World : World where
  repoPages := [⟨404, some "Not Found", [], false⟩]
  workflowPages := fun _ => [⟨200, none, some [⟨".github/workflows/ci.yml"⟩], false⟩]
  runPages := fun _ => [⟨200, none, some [⟨1⟩, ⟨2⟩], false⟩]
  enableResp := fun _ _ => ⟨204, .json none⟩
  deleteResp := fun _ _ => .httpResp 204

/-- C5 witness: a 404 `{"message": "Not Found"}` repository listing makes
both sweeps fail with a message containing `Not Found` and an empty
request trace. -/
theorem c5_witness :
    enable_all_workflows "octo" c5World
      = ([], .error "ERROR reading repositories for user octo: Not Found")
    ∧ delete_old_workflow_runs "octo" 50 c5World
      = ([], .error "ERROR reading repositories for user octo: Not Found")
    ∧ ∃ pre, "ERROR reading repositories for user octo: Not Found" = pre ++ "Not Found" := by
  obtain ⟨-, h2, h3, -⟩ :=
    c5_discovery_failure_fatal_atomic "octo" c5World 50 "Not Found" (by rfl)
  exact ⟨h2.trans (by rfl), h3.trans (by rfl),
    ⟨"ERROR reading repositories for user octo: ", rfl⟩⟩

/-- World for the C1 counterexample and witness: one repository with two
workflows where enabling the first fails with 403; three runs where, with
keep 1, deleting the first targeted run fails at transport level. -/
def c1World : World where
  repoPages := [⟨200, none, [⟨"repo1"⟩], false⟩]
  workflowPages := fun _ =>
    [⟨200, none, some [⟨".github/workflows/a.yml"⟩, ⟨".github/workflows/b.yml"⟩], false⟩]
  runPages := fun _ => [⟨200, none, some [⟨7⟩, ⟨3⟩, ⟨9⟩], false⟩]
  enableResp := fun _ fn =>
    if fn = "a.yml" then ⟨403, .json (some "Forbidden")⟩ else ⟨204, .json none⟩
  deleteResp := fun _ rid => if rid = 7 then .transportFailure "timeout" else .httpResp 204

/-- C1 counterexample: a failing enable on `a.yml` stops the sweep — the
second workflow `b.yml` of the same repository is never processed — and a
failing delete on run 7 stops the pruning sweep before run 3. -/
theorem c1_counterexample :
    enable_all_workflows "octo" c1World
      = ([Event.listWorkflows "repo1", Event.enableRequest "repo1" "a.yml"],
         .error "ERROR enabling repository repo1, workflow a.yml: Forbidden")
    ∧ Event.enableRequest "repo1" "b.yml" ∉ (enable_all_workflows "octo" c1World).1
    ∧ delete_old_workflow_runs "octo" 1 c1World
      = ([Event.listRuns "repo1", Event.deleteRequest "repo1" 7],
         .error "ERROR deleting workflow run ID: 7 for user: octo, repository: repo1: timeout")
    ∧ Event.deleteRequest "repo1" 3 ∉ (delete_old_workflow_runs "octo" 1 c1World).1 :=
  ⟨rfl, by decide, rfl, by decide⟩

/-! Trace lemmas for the orchestrator loops: how a successful prefix
composes, and which repositories and items a trace can mention. -/
/-- The repository a trace event concerns. -/
def eventRepository : Event → String
  | .listWorkflows r => r
  | .enableRequest r _ => r
  | .listRuns r => r
  | .deleteRequest r _ => r

theorem processWorkflows_append (w : World) (repository : String) :
    ∀ fns1 fns2, (processWorkflows w repository fns1).2 = .ok () →
      processWorkflows w repository (fns1 ++ fns2)
        = ((processWorkflows w repository fns1).1 ++ (processWorkflows w repository fns2).1,
           (processWorkflows w repository fns2).2)
  | [], fns2, _ => by simp [processWorkflows]
  | f :: rest, fns2, h => by
    cases hr : (enable_workflow repository f (w.enableResp repository f)).1 with
    | error m => simp [processWorkflows, hr] at h
    | ok s =>
      have h2 : (processWorkflows w repository rest).2 = .ok () := by
        simpa [processWorkflows, hr] using h
      have ih := processWorkflows_append w repository rest fns2 h2
      simp [processWorkflows, hr, ih]

theorem processRepos_append (owner : String) (w : World) :
    ∀ rs1 rs2, (processRepos owner w rs1).2 = .ok () →
      processRepos owner w (rs1 ++ rs2)
        = ((processRepos owner w rs1).1 ++ (processRepos owner w rs2).1,
           (processRepos owner w rs2).2)
  | [], rs2, _ => by simp [processRepos]
  | r :: rest, rs2, h => by
    cases hw : get_workflows owner r (w.workflowPages r) with
    | error m => simp [processRepos, hw] at h
    | ok fns =>
      cases hi : (processWorkflows w r fns).2 with
      | error m => simp [processRepos, hw, hi] at h
      | ok u =>
        have h2 : (processRepos owner w rest).2 = .ok () := by
          simpa [processRepos, hw, hi] using h
        have ih := processRepos_append owner w rest rs2 h2
        simp [processRepos, hw, hi, ih]

theorem processRuns_append (owner : String) (w : World) (repository : String) :
    ∀ ds1 ds2, (processRuns owner w repository ds1).2 = .ok () →
      processRuns owner w repository (ds1 ++ ds2)
        = ((processRuns owner w repository ds1).1 ++ (processRuns owner w repository ds2).1,
           (processRuns owner w repository ds2).2)
  | [], ds2, _ => by simp [processRuns]
  | d :: rest, ds2, h => by
    cases hr : (delete_workflow_run owner repository d (w.deleteResp repository d)).2 with
    | error m => simp [processRuns, hr] at h
    | ok u =>
      have h2 : (processRuns owner w repository rest).2 = .ok () := by
        simpa [processRuns, hr] using h
      have ih := processRuns_append owner w repository rest ds2 h2
      simp [processRuns, hr, ih]

theorem processRepoRuns_append (owner : String) (keep : Int) (w : World) :
    ∀ rs1 rs2, (processRepoRuns owner keep w rs1).2 = .ok () →
      processRepoRuns owner keep w (rs1 ++ rs2)
        = ((processRepoRuns owner keep w rs1).1 ++ (processRepoRuns owner keep w rs2).1,
           (processRepoRuns owner keep w rs2).2)
  | [], rs2, _ => by simp [processRepoRuns]
  | r :: rest, rs2, h => by
    cases hw : get_workflow_runs owner r (w.runPages r) with
    | error m => simp [processRepoRuns, hw] at h
    | ok ids =>
      cases hi : (processRuns owner w r (workflow_run_ids_to_delete ids keep)).2 with
      | error m => simp [processRepoRuns, hw, hi] at h
      | ok u =>
        have h2 : (processRepoRuns owner keep w rest).2 = .ok () := by
          simpa [processRepoRuns, hw, hi] using h
        have ih := processRepoRuns_append owner keep w rest rs2 h2
        simp [processRepoRuns, hw, hi, ih]

theorem processWorkflows_trace_shape (w : World) (repository : String) :
    ∀ fns, ∀ ev ∈ (processWorkflows w repository fns).1,
      ∃ f ∈ fns, ev = Event.enableRequest repository f
  | [], ev, h => by simp [processWorkflows] at h
  | f :: rest, ev, h => by
    by_cases hc : (enable_workflow repository f (w.enableResp repository f)).2 = 1
    · cases hr : (enable_workflow repository f (w.enableResp repository f)).1 with
      | error m =>
        simp [processWorkflows, hr, hc] at h
        exact ⟨f, List.mem_cons_self _ _, h⟩
      | ok s =>
        simp [processWorkflows, hr, hc] at h
        rcases h with h | h
        · exact ⟨f, List.mem_cons_self _ _, h⟩
        · obtain ⟨g, hg, hev⟩ := processWorkflows_trace_shape w repository rest ev h
          exact ⟨g, List.mem_cons_of_mem _ hg, hev⟩
    · cases hr : (enable_workflow repository f (w.enableResp repository f)).1 with
      | error m => simp [processWorkflows, hr, hc] at h
      | ok s =>
        simp [processWorkflows, hr, hc] at h
        obtain ⟨g, hg, hev⟩ := processWorkflows_trace_shape w repository rest ev h
        exact ⟨g, List.mem_cons_of_mem _ hg, hev⟩

theorem processRepos_trace_shape (owner : String) (w : World) :
    ∀ rs, ∀ ev ∈ (processRepos owner w rs).1, eventRepository ev ∈ rs
  | [], ev, h => by simp [processRepos] at h
  | r :: rest, ev, h => by
    cases hw : get_workflows owner r (w.workflowPages r) with
    | error m =>
      simp [processRepos, hw] at h
      simp [h, eventRepository]
    | ok fns =>
      cases hi : (processWorkflows w r fns).2 with
      | error m =>
        simp [processRepos, hw, hi] at h
        rcases h with h | h
        · simp [h, eventRepository]
        · obtain ⟨g, hg, hev⟩ := processWorkflows_trace_shape w r fns ev h
          simp [hev, eventRepository]
      | ok u =>
        simp [processRepos, hw, hi] at h
        rcases h with h | h | h
        · simp [h, eventRepository]
        · obtain ⟨g, hg, hev⟩ := processWorkflows_trace_shape w r fns ev h
          simp [hev, eventRepository]
        · exact List.mem_cons_of_mem _ (processRepos_trace_shape owner w rest ev h)

theorem processRuns_trace_shape (owner : String) (w : World) (repository : String) :
    ∀ dels, ∀ ev ∈ (processRuns owner w repository dels).1,
      ∃ d ∈ dels, ev = Event.deleteRequest repository d
  | [], ev, h => by simp [processRuns] at h
  | d :: rest, ev, h => by
    cases hr : (delete_workflow_run owner repository d (w.deleteResp repository d)).2 with
    | error m =>
      simp [processRuns, hr] at h
      exact ⟨d, List.mem_cons_self _ _, h⟩
    | ok u =>
      simp [processRuns, hr] at h
      rcases h with h | h
      · exact ⟨d, List.mem_cons_self _ _, h⟩
      · obtain ⟨e, he, hev⟩ := processRuns_trace_shape owner w repository rest ev h
        exact ⟨e, List.mem_cons_of_mem _ he, hev⟩

theorem processRepoRuns_trace_shape (owner : String) (keep : Int) (w : World) :
    ∀ rs, ∀ ev ∈ (processRepoRuns owner keep w rs).1, eventRepository ev ∈ rs
  | [], ev, h => by simp [processRepoRuns] at h
  | r :: rest, ev, h => by
    cases hw : get_workflow_runs owner r (w.runPages r) with
    | error m =>
      simp [processRepoRuns, hw] at h
      simp [h, eventRepository]
    | ok ids =>
      cases hi : (processRuns owner w r (workflow_run_ids_to_delete ids keep)).2 with
      | error m =>
        simp [processRepoRuns, hw, hi] at h
        rcases h with h | h
        · simp [h, eventRepository]
        · obtain ⟨d, hd, hev⟩ := processRuns_trace_shape owner w r _ ev h
          simp [hev, eventRepository]
      | ok u =>
        simp [processRepoRuns, hw, hi] at h
        rcases h with h | h | h
        · simp [h, eventRepository]
        · obtain ⟨d, hd, hev⟩ := processRuns_trace_shape owner w r _ ev h
          simp [hev, eventRepository]
        · exact List.mem_cons_of_mem _ (processRepoRuns_trace_shape owner keep w rest ev h)

/-- C1 amended: per-item failures are not isolated.  Wherever the failing
item sits — any repository position, any workflow or run position within
that repository — the first failing enable (non-2xx PUT response) aborts
`enable_all_workflows` right after its own request, and the first failing
delete (transport failure) aborts `delete_old_workflow_runs` right after
its own request: the trace ends at the failing request, the remaining items
of the same repository are never requested, and no later repository is ever
listed or acted on. -/
theorem c1_amended_item_failure_aborts_sweep (owner repository fn : String)
    (repos1 repos2 fns1 fns2 : List String) (dels1 dels2 ids : List Nat)
    (w : World) (m m' : String) (rid : Nat) (keep : Int) :
    (get_repositories owner w.repoPages = .ok (repos1 ++ repository :: repos2) →
     (repos1 ++ repository :: repos2).Nodup →
     (processRepos owner w repos1).2 = .ok () →
     get_workflows owner repository (w.workflowPages repository) = .ok (fns1 ++ fn :: fns2) →
     (fns1 ++ fn :: fns2).Nodup →
     (processWorkflows w repository fns1).2 = .ok () →
     (enable_workflow repository fn (w.enableResp repository fn)).1 = .error m →
     enable_all_workflows owner w
       = ((processRepos owner w repos1).1
           ++ Event.listWorkflows repository
             :: ((processWorkflows w repository fns1).1 ++ [Event.enableRequest repository fn]),
          .error m)
     ∧ (∀ g ∈ fns2, Event.enableRequest repository g ∉ (enable_all_workflows owner w).1)
     ∧ (∀ r ∈ repos2, Event.listWorkflows r ∉ (enable_all_workflows owner w).1
         ∧ ∀ g, Event.enableRequest r g ∉ (enable_all_workflows owner w).1))
    ∧
    (get_repositories owner w.repoPages = .ok (repos1 ++ repository :: repos2) →
     (repos1 ++ repository :: repos2).Nodup →
     (processRepoRuns owner keep w repos1).2 = .ok () →
     get_workflow_runs owner repository (w.runPages repository) = .ok ids →
     workflow_run_ids_to_delete ids keep = dels1 ++ rid :: dels2 →
     (dels1 ++ rid :: dels2).Nodup →
     (processRuns owner w repository dels1).2 = .ok () →
     (delete_workflow_run owner repository rid (w.deleteResp repository rid)).2 = .error m' →
     delete_old_workflow_runs owner keep w
       = ((processRepoRuns owner keep w repos1).1
           ++ Event.listRuns repository
             :: ((processRuns owner w repository dels1).1 ++ [Event.deleteRequest repository rid]),
          .error m')
     ∧ (∀ d ∈ dels2, Event.deleteRequest repository d ∉ (delete_old_workflow_runs owner keep w).1)
     ∧ (∀ r ∈ repos2, Event.listRuns r ∉ (delete_old_workflow_runs owner keep w).1
         ∧ ∀ d, Event.deleteRequest r d ∉ (delete_old_workflow_runs owner keep w).1)) := by
  constructor
  · intro h1 hnd hpre h2 hndf hwpre h3
    rw [List.nodup_append] at hnd
    obtain ⟨-, hnd2, hdisj⟩ := hnd
    have hrep_not1 : repository ∉ repos1 := fun hmem => hdisj hmem (List.mem_cons_self _ _)
    have hr2_not1 : ∀ r ∈ repos2, r ∉ repos1 :=
      fun r hr hmem => hdisj hmem (List.mem_cons_of_mem _ hr)
    have hr2_ne : ∀ r ∈ repos2, r ≠ repository := by
      intro r hr heq
      subst heq
      exact (List.nodup_cons.mp hnd2).1 hr
    rw [List.nodup_append] at hndf
    obtain ⟨-, hf2, hfdisj⟩ := hndf
    have hg2_not1 : ∀ g ∈ fns2, g ∉ fns1 :=
      fun g hg hmem => hfdisj hmem (List.mem_cons_of_mem _ hg)
    have hg2_ne : ∀ g ∈ fns2, g ≠ fn := by
      intro g hg heq
      subst heq
      exact (List.nodup_cons.mp hf2).1 hg
    have hfail : processWorkflows w repository (fn :: fns2)
        = ([Event.enableRequest repository fn], .error m) := by
      simp [processWorkflows, enable_error_shape repository fn _ m h3]
    have hinner : processWorkflows w repository (fns1 ++ fn :: fns2)
        = ((processWorkflows w repository fns1).1 ++ [Event.enableRequest repository fn],
           .error m) := by
      rw [processWorkflows_append w repository fns1 (fn :: fns2) hwpre, hfail]
    have hrfail : processRepos owner w (repository :: repos2)
        = (Event.listWorkflows repository
            :: ((processWorkflows w repository fns1).1 ++ [Event.enableRequest repository fn]),
           .error m) := by
      simp [processRepos, h2, hinner]
    have hall : processRepos owner w (repos1 ++ repository :: repos2)
        = ((processRepos owner w repos1).1
            ++ Event.listWorkflows repository
              :: ((processWorkflows w repository fns1).1 ++ [Event.enableRequest repository fn]),
           .error m) := by
      rw [processRepos_append owner w repos1 (repository :: repos2) hpre, hrfail]
    have hmain : enable_all_workflows owner w
        = ((processRepos owner w repos1).1
            ++ Event.listWorkflows repository
              :: ((processWorkflows w repository fns1).1 ++ [Event.enableRequest repository fn]),
           .error m) := by
      simp [enable_all_workflows, h1, hall]
    have htr : (enable_all_workflows owner w).1
        = (processRepos owner w repos1).1
          ++ Event.listWorkflows repository
            :: ((processWorkflows w repository fns1).1 ++ [Event.enableRequest repository fn]) := by
      rw [hmain]
    refine ⟨hmain, ?_, ?_⟩
    · intro g hg hmem
      rw [htr] at hmem
      rcases List.mem_append.mp hmem with hA | hB
      · have hshape := processRepos_trace_shape owner w repos1 _ hA
        simp [eventRepository] at hshape
        exact hrep_not1 hshape
      · rcases List.mem_cons.mp hB with hB1 | hB2
        · simp at hB1
        · rcases List.mem_append.mp hB2 with hC | hD
          · obtain ⟨g', hg', hev⟩ := processWorkflows_trace_shape w repository fns1 _ hC
            simp at hev
            exact hg2_not1 g hg (hev ▸ hg')
          · simp at hD
            exact hg2_ne g hg hD
    · intro r hr
      constructor
      · intro hmem
        rw [htr] at hmem
        rcases List.mem_append.mp hmem with hA | hB
        · have hshape := processRepos_trace_shape owner w repos1 _ hA
          simp [eventRepository] at hshape
          exact hr2_not1 r hr hshape
        · rcases List.mem_cons.mp hB with hB1 | hB2
          · simp at hB1
            exact hr2_ne r hr hB1
          · rcases List.mem_append.mp hB2 with hC | hD
            · obtain ⟨g', hg', hev⟩ := processWorkflows_trace_shape w repository fns1 _ hC
              simp at hev
            · simp at hD
      · intro g hmem
        rw [htr] at hmem
        rcases List.mem_append.mp hmem with hA | hB
        · have hshape := processRepos_trace_shape owner w repos1 _ hA
          simp [eventRepository] at hshape
          exact hr2_not1 r hr hshape
        · rcases List.mem_cons.mp hB with hB1 | hB2
          · simp at hB1
          · rcases List.mem_append.mp hB2 with hC | hD
            · obtain ⟨g', hg', hev⟩ := processWorkflows_trace_shape w repository fns1 _ hC
              simp at hev
              exact hr2_ne r hr hev.1
            · simp at hD
              exact hr2_ne r hr hD.1
  · intro h1 hnd hpre h2 h3 hndd hdpre h4
    rw [List.nodup_append] at hnd
    obtain ⟨-, hnd2, hdisj⟩ := hnd
    have hrep_not1 : repository ∉ repos1 := fun hmem => hdisj hmem (List.mem_cons_self _ _)
    have hr2_not1 : ∀ r ∈ repos2, r ∉ repos1 :=
      fun r hr hmem => hdisj hmem (List.mem_cons_of_mem _ hr)
    have hr2_ne : ∀ r ∈ repos2, r ≠ repository := by
      intro r hr heq
      subst heq
      exact (List.nodup_cons.mp hnd2).1 hr
    rw [List.nodup_append] at hndd
    obtain ⟨-, hd2, hddisj⟩ := hndd
    have hd2_not1 : ∀ d ∈ dels2, d ∉ dels1 :=
      fun d hd hmem => hddisj hmem (List.mem_cons_of_mem _ hd)
    have hd2_ne : ∀ d ∈ dels2, d ≠ rid := by
      intro d hd heq
      subst heq
      exact (List.nodup_cons.mp hd2).1 hd
    have hfail : processRuns owner w repository (rid :: dels2)
        = ([Event.deleteRequest repository rid], .error m') := by
      simp [processRuns, delete_error_shape owner repository rid _ m' h4]
    have hinner : processRuns owner w repository (dels1 ++ rid :: dels2)
        = ((processRuns owner w repository dels1).1 ++ [Event.deleteRequest repository rid],
           .error m') := by
      rw [processRuns_append owner w repository dels1 (rid :: dels2) hdpre, hfail]
    have hrfail : processRepoRuns owner keep w (repository :: repos2)
        = (Event.listRuns repository
            :: ((processRuns owner w repository dels1).1 ++ [Event.deleteRequest repository rid]),
           .error m') := by
      simp [processRepoRuns, h2, h3, hinner]
    have hall : processRepoRuns owner keep w (repos1 ++ repository :: repos2)
        = ((processRepoRuns owner keep w repos1).1
            ++ Event.listRuns repository
              :: ((processRuns owner w repository dels1).1 ++ [Event.deleteRequest repository rid]),
           .error m') := by
      rw [processRepoRuns_append owner keep w repos1 (repository :: repos2) hpre, hrfail]
    have hmain : delete_old_workflow_runs owner keep w
        = ((processRepoRuns owner keep w repos1).1
            ++ Event.listRuns repository
              :: ((processRuns owner w repository dels1).1 ++ [Event.deleteRequest repository rid]),
           .error m') := by
      simp [delete_old_workflow_runs, h1, hall]
    have htr : (delete_old_workflow_runs owner keep w).1
        = (processRepoRuns owner keep w repos1).1
          ++ Event.listRuns repository
            :: ((processRuns owner w repository dels1).1 ++ [Event.deleteRequest repository rid]) := by
      rw [hmain]
    refine ⟨hmain, ?_, ?_⟩
    · intro d hd hmem
      rw [htr] at hmem
      rcases List.mem_append.mp hmem with hA | hB
      · have hshape := processRepoRuns_trace_shape owner keep w repos1 _ hA
        simp [eventRepository] at hshape
        exact hrep_not1 hshape
      · rcases List.mem_cons.mp hB with hB1 | hB2
        · simp at hB1
        · rcases List.mem_append.mp hB2 with hC | hD
          · obtain ⟨d', hd', hev⟩ := processRuns_trace_shape owner w repository dels1 _ hC
            simp at hev
            exact hd2_not1 d hd (hev ▸ hd')
          · simp at hD
            exact hd2_ne d hd hD
    · intro r hr
      constructor
      · intro hmem
        rw [htr] at hmem
        rcases List.mem_append.mp hmem with hA | hB
        · have hshape := processRepoRuns_trace_shape owner keep w repos1 _ hA
          simp [eventRepository] at hshape
          exact hr2_not1 r hr hshape
        · rcases List.mem_cons.mp hB with hB1 | hB2
          · simp at hB1
            exact hr2_ne r hr hB1
          · rcases List.mem_append.mp hB2 with hC | hD
            · obtain ⟨d', hd', hev⟩ := processRuns_trace_shape owner w repository dels1 _ hC
              simp at hev
            · simp at hD
      · intro d hmem
        rw [htr] at hmem
        rcases List.mem_append.mp hmem with hA | hB
        · have hshape := processRepoRuns_trace_shape owner keep w repos1 _ hA
          simp [eventRepository] at hshape
          exact hr2_not1 r hr hshape
        · rcases List.mem_cons.mp hB with hB1 | hB2
          · simp at hB1
          · rcases List.mem_append.mp hB2 with hC | hD
            · obtain ⟨d', hd', hev⟩ := processRuns_trace_shape owner w repository dels1 _ hC
              simp at hev
              exact hr2_ne r hr hev.1
            · simp at hD
              exact hr2_ne r hr hD.1

/-- World for the C1 amended witness: three repositories; `alpha` processes
fully, `beta` fails on its second workflow (and, for pruning with keep 1,
on its second targeted run), `gamma` is pending after the failure. -/
def c1AbortWorld : World where
  repoPages := [⟨200, none, [⟨"alpha"⟩, ⟨"beta"⟩, ⟨"gamma"⟩], false⟩]
  workflowPages := fun r =>
    if r = "alpha" then [⟨200, none, some [⟨".github/workflows/ok.yml"⟩], false⟩]
    else if r = "beta" then
      [⟨200, none, some [⟨".github/workflows/good.yml"⟩, ⟨".github/workflows/bad.yml"⟩,
        ⟨".github/workflows/late.yml"⟩], false⟩]
    else [⟨200, none, some [⟨".github/workflows/never.yml"⟩], false⟩]
  runPages := fun r =>
    if r = "alpha" then [⟨200, none, some [⟨1⟩, ⟨2⟩], false⟩]
    else if r = "beta" then [⟨200, none, some [⟨5⟩, ⟨6⟩, ⟨7⟩, ⟨8⟩], false⟩]
    else [⟨200, none, some [⟨9⟩], false⟩]
  enableResp := fun r f =>
    if r = "beta" && f = "bad.yml" then ⟨403, .json (some "Forbidden")⟩ else ⟨204, .json none⟩
  deleteResp := fun r d =>
    if r = "beta" && d = 6 then .transportFailure "timeout" else .httpResp 204

/-- C1 amended witness: in `c1AbortWorld` both sweeps stop at the failing
item of `beta` — `late.yml` and run 5 are never requested, and `gamma` is
never listed. -/
theorem c1_amended_witness :
    enable_all_workflows "octo" c1AbortWorld
      = ([Event.listWorkflows "alpha", Event.enableRequest "alpha" "ok.yml",
          Event.listWorkflows "beta", Event.enableRequest "beta" "good.yml",
          Event.enableRequest "beta" "bad.yml"],
         .error "ERROR enabling repository beta, workflow bad.yml: Forbidden")
    ∧ Event.enableRequest "beta" "late.yml" ∉ (enable_all_workflows "octo" c1AbortWorld).1
    ∧ Event.listWorkflows "gamma" ∉ (enable_all_workflows "octo" c1AbortWorld).1
    ∧ delete_old_workflow_runs "octo" 1 c1AbortWorld
      = ([Event.listRuns "alpha", Event.deleteRequest "alpha" 1,
          Event.listRuns "beta", Event.deleteRequest "beta" 7, Event.deleteRequest "beta" 6],
         .error "ERROR deleting workflow run ID: 6 for user: octo, repository: beta: timeout")
    ∧ Event.deleteRequest "beta" 5 ∉ (delete_old_workflow_runs "octo" 1 c1AbortWorld).1
    ∧ Event.listRuns "gamma" ∉ (delete_old_workflow_runs "octo" 1 c1AbortWorld).1 := by
  obtain ⟨A, B⟩ := c1_amended_item_failure_aborts_sweep "octo" "beta" "bad.yml"
    ["alpha"] ["gamma"] ["good.yml"] ["late.yml"] [7] [5] [5, 6, 7, 8]
    c1AbortWorld
    "ERROR enabling repository beta, workflow bad.yml: Forbidden"
    "ERROR deleting workflow run ID: 6 for user: octo, repository: beta: timeout" 6 1
  obtain ⟨e1, e2, e3⟩ := A (by rfl) (by decide) (by rfl) (by rfl) (by decide) (by rfl) (by rfl)
  obtain ⟨d1, d2, d3⟩ :=
    B (by rfl) (by decide) (by rfl) (by rfl) (by decide) (by decide) (by rfl) (by rfl)
  exact ⟨e1.trans (by rfl), e2 "late.yml" (by decide), (e3 "gamma" (by decide)).1,
    d1.trans (by rfl), d2 5 (by decide), (d3 "gamma" (by decide)).1⟩

/-! Helper lemmas about the configuration fallback loop. -/

theorem lookupInFiles_skip_front (key : String) :
    ∀ fs1 rest, (∀ g ∈ fs1, dictGet (_read_env_file g) key = none) →
      lookupInFiles key (fs1 ++ rest) = lookupInFiles key rest
  | [], _, _ => rfl
  | g :: gs, rest, h => by
    have hg := h g (List.mem_cons_self _ _)
    have ih := lookupInFiles_skip_front key gs rest (fun x hx => h x (List.mem_cons_of_mem _ hx))
    simp [lookupInFiles, hg, ih]

theorem lookupInFiles_all_empty (key : String) :
    ∀ fs, (∀ g ∈ fs, dictGet (_read_env_file g) key = none
        ∨ dictGet (_read_env_file g) key = some "") →
      lookupInFiles key fs = .error ("Missing required configuration: " ++ key)
  | [], _ => rfl
  | g :: gs, h => by
    have ih := lookupInFiles_all_empty key gs (fun x hx => h x (List.mem_cons_of_mem _ hx))
    rcases h g (List.mem_cons_self _ _) with hg | hg
    · simp [lookupInFiles, hg, ih]
    · simp [lookupInFiles, hg, ih]

theorem lookupInFiles_ok_ne (key : String) :
    ∀ fs v, lookupInFiles key fs = .ok v → v ≠ ""
  | [], v, h => by simp [lookupInFiles] at h
  | f :: fs, v, h => by
    simp only [lookupInFiles] at h
    cases hg : dictGet (_read_env_file f) key with
    | none =>
      rw [hg] at h
      exact lookupInFiles_ok_ne key fs v h
    | some x =>
      rw [hg] at h
      by_cases hx : x = ""
      · rw [hx] at h
        simp at h
        exact lookupInFiles_ok_ne key fs v h
      · simp [hx] at h
        subst h
        exact hx

/-- C8: `get_owner` and `get_github_token` resolve from the process
environment first; when the key is absent there, from the first candidate
`.env` file (in priority order) defining it; and when it resolves nowhere
they fail with a `Missing required configuration` error naming the key. -/
theorem c8_credential_resolution_order (cfg : ConfigEnv) (key v : String) :
    (cfg.env key = some v → v ≠ "" → _lookup_config_value cfg key = .ok v)
    ∧ (cfg.env key = none →
        ∀ fs1 f fs2, cfg.envFiles = fs1 ++ f :: fs2 →
          (∀ g ∈ fs1, dictGet (_read_env_file g) key = none) →
          dictGet (_read_env_file f) key = some v → v ≠ "" →
          _lookup_config_value cfg key = .ok v)
    ∧ (cfg.env key = none →
        (∀ f ∈ cfg.envFiles, dictGet (_read_env_file f) key = none) →
        _lookup_config_value cfg key
          = .error ("Missing required configuration: " ++ key))
    ∧ get_owner cfg = _lookup_config_value cfg "SECRET_GITHUB_OWNER"
    ∧ get_github_token cfg = _lookup_config_value cfg "SECRET_GITHUB_TOKEN" := by
  refine ⟨?_, ?_, ?_, rfl, rfl⟩
  · intro h hne
    simp [_lookup_config_value, h, hne]
  · intro h fs1 f fs2 hsplit hskip hf hne
    rw [_lookup_config_value, h, hsplit,
      lookupInFiles_skip_front key fs1 (f :: fs2) hskip, lookupInFiles, hf]
    simp [hne]
  · intro h hall
    have hf := lookupInFiles_all_empty key cfg.envFiles (fun g hg => Or.inl (hall g hg))
    simp [_lookup_config_value, h, hf]

/-- Configuration for the C8 witness: nothing in the environment, the owner
defined by the second candidate `.env` file. -/
def c8Cfg : ConfigEnv :=
  ⟨fun _ => none,
   [["# local overrides", "OTHER=1"],
    ["SECRET_GITHUB_OWNER=alice", "SECRET_GITHUB_TOKEN=tok123"]]⟩

/-- C8 witness: the owner resolves from the first file defining it, and an
undefined key fails with the naming error before any request exists. -/
theorem c8_witness :
    _lookup_config_value c8Cfg "SECRET_GITHUB_OWNER" = .ok "alice"
    ∧ get_owner c8Cfg = .ok "alice"
    ∧ _lookup_config_value ⟨fun _ => none, []⟩ "SECRET_GITHUB_TOKEN"
        = .error "Missing required configuration: SECRET_GITHUB_TOKEN" := by
  obtain ⟨-, b2, -, b4, -⟩ :=
    c8_credential_resolution_order c8Cfg "SECRET_GITHUB_OWNER" "alice"
  obtain ⟨-, -, d3, -, -⟩ :=
    c8_credential_resolution_order ⟨fun _ => none, []⟩ "SECRET_GITHUB_TOKEN" ""
  have h := b2 rfl [["# local overrides", "OTHER=1"]]
    ["SECRET_GITHUB_OWNER=alice", "SECRET_GITHUB_TOKEN=tok123"] [] rfl
    (by decide) (by decide) (by decide)
  exact ⟨h, b4.trans h, (d3 rfl (by simp)).trans (by rfl)⟩

/-- C10: an empty-string environment value is treated as missing — the
lookup falls through to the `.env` files, skips empty file values too,
errors when nothing non-empty is found anywhere, and therefore every
resolved credential is a non-empty string. -/
theorem c10_empty_values_treated_as_missing (cfg : ConfigEnv) (key v : String)
    (f : List String) (fs : List (List String)) :
    (cfg.env key = some "" →
      _lookup_config_value cfg key = lookupInFiles key cfg.envFiles)
    ∧ (dictGet (_read_env_file f) key = some "" →
      lookupInFiles key (f :: fs) = lookupInFiles key fs)
    ∧ ((cfg.env key = none ∨ cfg.env key = some "") →
      (∀ g ∈ cfg.envFiles, dictGet (_read_env_file g) key = none
        ∨ dictGet (_read_env_file g) key = some "") →
      _lookup_config_value cfg key
        = .error ("Missing required configuration: " ++ key))
    ∧ (_lookup_config_value cfg key = .ok v → v ≠ "") := by
  refine ⟨?_, ?_, ?_, ?_⟩
  · intro h
    simp [_lookup_config_value, h]
  · intro h
    simp [lookupInFiles, h]
  · intro he hall
    have hf := lookupInFiles_all_empty key cfg.envFiles hall
    rcases he with h | h
    · simp [_lookup_config_value, h, hf]
    · simp [_lookup_config_value, h, hf]
  · intro h
    unfold _lookup_config_value at h
    cases hc : cfg.env key with
    | none =>
      rw [hc] at h
      exact lookupInFiles_ok_ne key _ v h
    | some x =>
      rw [hc] at h
      by_cases hx : x = ""
      · rw [hx] at h
        simp at h
        exact lookupInFiles_ok_ne key _ v h
      · simp [hx] at h
        subst h
        exact hx

/-- Configuration for the C10 witness: the token is set to the empty string
in the environment and in the first file, and non-empty in the second. -/
def c10Cfg : ConfigEnv :=
  ⟨fun _ => some "", [["SECRET_GITHUB_TOKEN="], ["SECRET_GITHUB_TOKEN=tok"]]⟩

/-- Configuration for the C10 error case: empty everywhere. -/
def c10ErrCfg : ConfigEnv :=
  ⟨fun _ => some "", [["SECRET_GITHUB_TOKEN="]]⟩

/-- C10 witness: empty environment and file values fall through, yield the
naming error when nothing non-empty exists, and a resolved value is
non-empty. -/
theorem c10_witness :
    _lookup_config_value c10Cfg "SECRET_GITHUB_TOKEN"
        = lookupInFiles "SECRET_GITHUB_TOKEN" c10Cfg.envFiles
    ∧ lookupInFiles "SECRET_GITHUB_TOKEN" [["SECRET_GITHUB_TOKEN="], ["SECRET_GITHUB_TOKEN=tok"]]
        = lookupInFiles "SECRET_GITHUB_TOKEN" [["SECRET_GITHUB_TOKEN=tok"]]
    ∧ _lookup_config_value c10ErrCfg "SECRET_GITHUB_TOKEN"
        = .error "Missing required configuration: SECRET_GITHUB_TOKEN"
    ∧ "tok" ≠ "" := by
  obtain ⟨a1, -, -, a4⟩ := c10_empty_values_treated_as_missing c10Cfg
    "SECRET_GITHUB_TOKEN" "tok" ["SECRET_GITHUB_TOKEN="] [["SECRET_GITHUB_TOKEN=tok"]]
  obtain ⟨-, e2, e3, -⟩ := c10_empty_values_treated_as_missing c10ErrCfg
    "SECRET_GITHUB_TOKEN" "" ["SECRET_GITHUB_TOKEN="] [["SECRET_GITHUB_TOKEN=tok"]]
  exact ⟨a1 rfl, e2 (by decide), (e3 (Or.inr rfl) (by decide)).trans (by rfl),
    a4 (by rfl)⟩

end KeepActive
